import Mathlib

/-!
Verification of the NivHenn property-analysis core against its design notes.

The Python sources are shallowly embedded:
* floats that carry scores/weights become exact fractions (`Frac`, an
  unnormalized `ℤ × ℤ` pair); the values the claims exercise are far from
  rounding boundaries, so the float/exact-fraction gap is irrelevant to
  every statement below;
* Python dicts become association lists in insertion order, looked up with
  `List.lookup`;
* fallible code returns an explicit result type; catching an exception
  becomes a `match` on the error constructor;
* external I/O (HTTP responses, the crew batch runtime, the Serper client)
  becomes an explicit oracle argument, so theorems quantify over every
  possible behaviour of the external world.
-/

namespace NivHenn

/-! ## Exact fractions (the embedding of Python floats) -/

/-- An exact fraction `n / d`, kept unnormalized.  Every fraction the
embedding builds has a positive denominator. -/
structure Frac where
  n : ℤ
  d : ℤ
deriving DecidableEq

/-- Fraction addition (no normalization). -/
def Frac.add (x y : Frac) : Frac := ⟨x.n * y.d + y.n * x.d, x.d * y.d⟩

/-- Multiply a fraction by an integer. -/
def Frac.mulInt (k : ℤ) (x : Frac) : Frac := ⟨k * x.n, x.d⟩

/-- Fraction division (no normalization). -/
def Frac.divF (x y : Frac) : Frac := ⟨x.n * y.d, x.d * y.n⟩

/-- `0 < x` for a fraction (valid whenever the denominator is nonzero). -/
def Frac.isPos (x : Frac) : Bool := 0 < x.n * x.d

/-- Embed an integer as a fraction. -/
def Frac.ofInt (k : ℤ) : Frac := ⟨k, 1⟩

/-- Round-half-to-even of `n / d` for `0 < d`, via floor division.  This is
Python's built-in `round` (banker's rounding) on an exact value. -/
def roundHalfEven (n d : ℤ) : ℤ :=
  let f := Int.fdiv n d
  let r := n - f * d
  if 2 * r < d then f
  else if d < 2 * r then f + 1
  else if f % 2 = 0 then f else f + 1

/-- Python `round` on a fraction: normalize the sign of the denominator,
then round half to even.  (A zero denominator never arises on the paths the
embedding executes; it is mapped to 0 for totality.) -/
def Frac.pyRound (x : Frac) : ℤ :=
  if x.d = 0 then 0
  else if x.d < 0 then roundHalfEven (-x.n) (-x.d)
  else roundHalfEven x.n x.d

/-! ## Score Normalizer (`src/app/scoring.py`) -/

/-- The kinds of Python value that reach `to_int_1_100` in practice:
`None`, a number, a string (on which `round` raises `TypeError`), or any
other non-numeric object (also a `TypeError`). -/
inductive PyVal where
  | none
  | num (q : Frac)
  | str (s : String)
  | other
deriving DecidableEq

/-- `scoring.to_int_1_100`: `None ↦ 50`; numeric `v ↦ max(1, min(100,
int(round(v))))`; a `ValueError`/`TypeError` from `round` (string or other
non-numeric input) is caught and yields 50. -/
def to_int_1_100 : PyVal → ℤ
  | .none => 50
  | .num q => max 1 (min 100 q.pyRound)
  | .str _ => 50
  | .other => 50

/-- `scoring.weighted_overall`: empty score dict ↦ 50; otherwise iterate the
weight dict, looking each key up in the score dict with default 50,
accumulate `Σ score·weight` and `Σ weight`, divide when the weight total is
positive (else 50), and pass the result through `to_int_1_100`. -/
def weighted_overall (scores : List (String × ℤ)) (weights : List (String × Frac)) : ℤ :=
  if scores = [] then 50
  else
    let totals := weights.foldl
      (fun (acc : Frac × Frac) kw =>
        let score : ℤ := (scores.lookup kw.1).getD 50
        (acc.1.add (Frac.mulInt score kw.2), acc.2.add kw.2))
      (⟨0, 1⟩, ⟨0, 1⟩)
    let final : Frac := if totals.2.isPos then totals.1.divF totals.2 else Frac.ofInt 50
    to_int_1_100 (.num final)

/-- The score map of the spec's worked `weightedOverall` example. -/
def exampleScores : List (String × ℤ) :=
  [("investment", 80), ("location", 70), ("news", 60), ("vc_risk", 75), ("construction", 65)]

/-- The weight map of the spec's worked `weightedOverall` example
(0.30, 0.25, 0.10, 0.20, 0.15 as exact fractions). -/
def exampleWeights : List (String × Frac) :=
  [("investment", ⟨3, 10⟩), ("location", ⟨1, 4⟩), ("news", ⟨1, 10⟩), ("vc_risk", ⟨1, 5⟩),
   ("construction", ⟨3, 20⟩)]

/-! ## External Dataset Client (`src/app/la_socrata.py`) -/

/-- `la_socrata.DatasetConfig`: one LA Open Data dataset descriptor. -/
structure DatasetConfig where
  dataset_id : String
  zip_fields : List (String × String)
  result_key : String
deriving DecidableEq

/-- `la_socrata.DATASETS`: the fixed dataset table. -/
def DATASETS : List DatasetConfig :=
  [⟨"pi9x-tg5x", [("zip_code", "eq")], "permits"⟩,
   ⟨"9w5z-rg2h", [], "inspections"⟩,
   ⟨"3f9m-afei", [("zip_code", "eq_numeric")], "coo"⟩,
   ⟨"u82d-eh7z", [("zip", "like_prefix")], "code_open"⟩,
   ⟨"rken-a55j", [("zip", "like_prefix")], "code_closed"⟩]

/-- `la_socrata.DEFAULT_RETRIES`: additional attempts after the first. -/
def DEFAULT_RETRIES : Nat := 2

/-- Python `str.isdigit`, restricted to ASCII digits (every zip the claims
exercise is ASCII): true iff the string is non-empty and all digits. -/
def pyIsDigit (s : String) : Bool := !s.data.isEmpty && s.data.all Char.isDigit

/-- `zip_code.replace("'", "''")`: double every single quote. -/
def escapeSingleQuotes (s : String) : String :=
  ⟨s.data.foldr (fun c acc => if c = '\x27' then '\x27' :: '\x27' :: acc else c :: acc) []⟩

/-- `LASocrataTool._build_where_clause`: no zip (or the empty string, which
is falsy in Python) yields no clause; otherwise build one clause per
configured zip field — numeric equality only for `eq_numeric` with an
all-digit zip, quoted equality for `eq`, and a quoted `like 'zip%'` prefix
match otherwise — and join them with `" OR "`. -/
def build_where_clause (cfg : DatasetConfig) (zip_code : Option String) : Option String :=
  match zip_code with
  | none => none
  | some z =>
    if z = "" then none
    else
      let escaped := escapeSingleQuotes z
      let clauses := cfg.zip_fields.foldl
        (fun (acc : List String) fm =>
          if fm.1 = "" then acc
          else
            let mode := if fm.2 = "" then "like_prefix" else fm.2
            if mode = "eq_numeric" ∧ pyIsDigit escaped then
              acc ++ [fm.1 ++ " = " ++ escaped]
            else if mode = "eq" then
              acc ++ [fm.1 ++ " = \x27" ++ escaped ++ "\x27"]
            else
              acc ++ [fm.1 ++ " like \x27" ++ escaped ++ "%\x27"])
        []
      if clauses = [] then none else some (String.intercalate " OR " clauses)

/-- `la_socrata.LASocrataError`, with the two messages `_fetch_dataset`
raises: a terminal HTTP status, or an invalid-JSON payload. -/
inductive SocErr where
  | httpStatus (dataset_id : String) (status : Nat)
  | invalidJson (dataset_id : String)
deriving DecidableEq

/-- `str(exc)` for the two `LASocrataError` messages of `_fetch_dataset`. -/
def SocErr.message : SocErr → String
  | .httpStatus d s => d ++ " request failed with status " ++ toString s
  | .invalidJson d => d ++ " returned invalid JSON"

/-- What `response.json()` can do: raise `ValueError`, return a JSON list
(the row payload), or return JSON that is not a list. -/
inductive RespBody where
  | invalid
  | rows (rs : List Nat)
  | nonList
deriving DecidableEq

/-- One HTTP response: a status code and a body. -/
structure HttpResponse where
  status : Nat
  body : RespBody
deriving DecidableEq

/-- The network's answers for one loop iteration of `_fetch_dataset`: the
primary request's response, and the response to the `$$app_token` fallback
request that is issued iff the primary came back 403. -/
structure AttemptResponses where
  primary : HttpResponse
  tokenFallback : HttpResponse
deriving DecidableEq

/-- The response the rest of the loop body sees (after the 403 fallback). -/
def effectiveResponse (a : AttemptResponses) : HttpResponse :=
  if a.primary.status = 403 then a.tokenFallback else a.primary

/-- The transient statuses `_fetch_dataset` retries. -/
def RETRY_STATUSES : List Nat := [429, 500, 502, 503, 504]

/-- Result of one `_fetch_dataset` call: the returned rows, or the raised
`LASocrataError`. -/
inductive FetchResult where
  | ok (rows : List Nat)
  | error (e : SocErr)
deriving DecidableEq

/-- Observable outcome of one `_fetch_dataset` call: the result, the number
of loop iterations performed (HTTP request rounds), and the backoff sleeps
issued, in tenths of a second (`1.5 * (attempt + 1)` seconds ↦
`15 * (attempt + 1)`). -/
structure FetchTrace where
  result : FetchResult
  attempts : Nat
  sleeps : List ℕ
deriving DecidableEq

/-- The retry loop of `LASocrataTool._fetch_dataset`, one constructor per
`for attempt in range(retries + 1)` iteration: `raise_for_status` throws for
any status ≥ 400; a retryable status with attempts left sleeps
`1.5 * (attempt + 1)` seconds and continues; any other ≥ 400 status raises
`LASocrataError` immediately; below 400 the body is parsed — `ValueError`
becomes an immediate `LASocrataError`, a JSON list is returned, and any
other JSON payload yields `[]`. -/
def fetchDatasetGo (net : Nat → AttemptResponses) (dsid : String) (retries : Nat) :
    Nat → Nat → FetchTrace
  | _, 0 => ⟨.ok [], 0, []⟩
  | attempt, remaining + 1 =>
    let resp := effectiveResponse (net attempt)
    if 400 ≤ resp.status then
      if resp.status ∈ RETRY_STATUSES ∧ attempt < retries then
        let rest := fetchDatasetGo net dsid retries (attempt + 1) remaining
        ⟨rest.result, rest.attempts + 1, 15 * (attempt + 1) :: rest.sleeps⟩
      else ⟨.error (.httpStatus dsid resp.status), 1, []⟩
    else
      match resp.body with
      | .invalid => ⟨.error (.invalidJson dsid), 1, []⟩
      | .rows rs => ⟨.ok rs, 1, []⟩
      | .nonList => ⟨.ok [], 1, []⟩

/-- `LASocrataTool._fetch_dataset` for a given network behaviour `net`. -/
def fetch_dataset (net : Nat → AttemptResponses) (dsid : String) (retries : Nat) : FetchTrace :=
  fetchDatasetGo net dsid retries 0 (retries + 1)

/-- `fetch_all`'s bundle payload: the echoed query, per-dataset row lists,
per-dataset counts, and per-dataset error strings.  (In the Python payload
the `errors` key is present only when the map is non-empty; an empty list
here models its absence.) -/
structure LABundle where
  queryAddress : String
  queryZip : Option String
  queryLimit : Int
  results : List (String × List Nat)
  counts : List (String × Nat)
  errors : List (String × String)
deriving DecidableEq

/-- The `ValueError`s `fetch_all` raises on bad arguments. -/
inductive PyError where
  | valueError (msg : String)
deriving DecidableEq

/-- `fetch_all`'s outcome: a bundle, or a raised `ValueError`. -/
inductive FetchAllResult where
  | ok (b : LABundle)
  | error (e : PyError)
deriving DecidableEq

/-- One iteration of `fetch_all`'s dataset loop: on success append the rows
and their count; on a caught `LASocrataError` record the error string under
the dataset's result key and substitute an empty row list. -/
def fetchAllStep (outcome : DatasetConfig → FetchResult)
    (acc : List (String × List Nat) × List (String × Nat) × List (String × String))
    (cfg : DatasetConfig) :
    List (String × List Nat) × List (String × Nat) × List (String × String) :=
  match outcome cfg with
  | .ok rows =>
    (acc.1 ++ [(cfg.result_key, rows)], acc.2.1 ++ [(cfg.result_key, rows.length)], acc.2.2)
  | .error e =>
    (acc.1 ++ [(cfg.result_key, [])], acc.2.1 ++ [(cfg.result_key, 0)],
     acc.2.2 ++ [(cfg.result_key, e.message)])

/-- `LASocrataTool.fetch_all`: reject an empty address or a non-positive
limit with `ValueError` before any dataset query; then query every
configured dataset (`outcome` abstracts `_fetch_dataset`), isolating each
per-dataset failure, and return the assembled bundle. -/
def fetch_all (outcome : DatasetConfig → FetchResult) (address : String)
    (zip_code : Option String) (limit : Int) : FetchAllResult :=
  if address = "" then .error (.valueError "address must be provided")
  else if limit ≤ 0 then .error (.valueError "limit must be positive")
  else
    let step := DATASETS.foldl (fetchAllStep outcome) ([], [], [])
    .ok ⟨address, zip_code, limit, step.1, step.2.1, step.2.2⟩

/-- The rows `fetch_all` stores for a dataset: the fetched rows, or `[]`
after a caught failure. -/
def rowsOf (outcome : DatasetConfig → FetchResult) (cfg : DatasetConfig) : List Nat :=
  match outcome cfg with
  | .ok rows => rows
  | .error _ => []

/-- The error string `fetch_all` records for a dataset, if any. -/
def errOf (outcome : DatasetConfig → FetchResult) (cfg : DatasetConfig) : Option String :=
  match outcome cfg with
  | .ok _ => none
  | .error e => some e.message

/-- The bundle `fetch_all` assembles once its preconditions hold. -/
def fetchAllBundle (outcome : DatasetConfig → FetchResult) (address : String)
    (zip_code : Option String) (limit : Int) : LABundle :=
  ⟨address, zip_code, limit,
   DATASETS.map (fun cfg => (cfg.result_key, rowsOf outcome cfg)),
   DATASETS.map (fun cfg => (cfg.result_key, (rowsOf outcome cfg).length)),
   DATASETS.filterMap (fun cfg => (errOf outcome cfg).map (fun m => (cfg.result_key, m)))⟩

/-- Network behaviour answering every request with HTTP 500. -/
def netAll500 : Nat → AttemptResponses := fun _ => ⟨⟨500, .nonList⟩, ⟨500, .nonList⟩⟩

/-- Network behaviour answering every request with HTTP 404. -/
def netAll404 : Nat → AttemptResponses := fun _ => ⟨⟨404, .nonList⟩, ⟨404, .nonList⟩⟩

/-- Network behaviour answering 200 with a non-JSON payload. -/
def netBadJson : Nat → AttemptResponses := fun _ => ⟨⟨200, .invalid⟩, ⟨200, .invalid⟩⟩

/-- Dataset outcomes where only the `coo` dataset fails (HTTP 500 after
exhausted retries) and every other dataset returns two rows. -/
def outcomeCooFails : DatasetConfig → FetchResult := fun cfg =>
  if cfg.result_key = "coo" then .error (.httpStatus "3f9m-afei" 500) else .ok [1, 2]

/-! ## Python string primitives used by the Output Normalizer -/

/-- Scan for `needle` in a character list, returning the absolute index of
the first occurrence (`i` is the index of the list's head). -/
def findSubAux : List Char → List Char → Nat → Option Nat
  | l, needle, i =>
    match l with
    | [] => if needle.isEmpty then some i else none
    | _ :: cs =>
      if needle.isPrefixOf l then some i else findSubAux cs needle (i + 1)

/-- Python `hay.find(needle, start)`: first index at or after `start`, or
`-1` when absent. -/
def pyFind (hay needle : List Char) (start : Nat) : Int :=
  match findSubAux (hay.drop start) needle start with
  | some i => i
  | none => -1

/-- Python slice `s[a:b]` for a non-negative `a` and a possibly negative
`b` (negative `b` counts from the end, clamped at 0). -/
def pySliceIdx (s : List Char) (a : Nat) (b : Int) : List Char :=
  let bb : Nat := if b < 0 then (s.length + b).toNat else min b.toNat s.length
  (s.take bb).drop a

/-- The characters Python `str.strip()` removes. -/
def isPySpace (c : Char) : Bool :=
  c = ' ' || c = '\t' || c = '\n' || c = '\r' || c = '\x0b' || c = '\x0c'

/-- Python `str.strip()` on a character list. -/
def pyStripChars (s : List Char) : List Char :=
  ((s.dropWhile isPySpace).reverse.dropWhile isPySpace).reverse

/-- The code-fence extraction of `_parse_agent_output`: prefer the interior
of a ```` ```json ```` fence, else of the first ```` ``` ```` pair, else the
raw text; in all cases `str.strip()` the result.  A missing closing fence
reproduces Python's `find = -1` slice end (everything up to the last
character). -/
def extract_json_str (raw : List Char) : List Char :=
  let fj := pyFind raw "```json".data 0
  if fj ≠ -1 then
    let start := (fj + 7).toNat
    let e := pyFind raw "```".data start
    pyStripChars (pySliceIdx raw start e)
  else
    let f2 := pyFind raw "```".data 0
    if f2 ≠ -1 then
      let start := (f2 + 3).toNat
      let e := pyFind raw "```".data start
      pyStripChars (pySliceIdx raw start e)
    else pyStripChars raw

/-! ## JSON (the embedding of `json.loads`) -/

/-- JSON values. -/
inductive Json where
  | null
  | bool (b : Bool)
  | num (q : Frac)
  | str (s : String)
  | arr (xs : List Json)
  | obj (kvs : List (String × Json))

/-- JSON whitespace. -/
def isJsonWs (c : Char) : Bool := c = ' ' || c = '\t' || c = '\n' || c = '\r'

/-- Skip JSON whitespace. -/
def skipWs (s : List Char) : List Char := s.dropWhile isJsonWs

/-- Hexadecimal digit value. -/
def hexVal (c : Char) : Option Nat :=
  if '0' ≤ c ∧ c ≤ '9' then some (c.toNat - 48)
  else if 'a' ≤ c ∧ c ≤ 'f' then some (c.toNat - 87)
  else if 'A' ≤ c ∧ c ≤ 'F' then some (c.toNat - 70)
  else none

/-- Parse the body of a JSON string (after the opening quote), handling the
standard escapes; unescaped control characters are rejected, as in
`json.loads`' strict mode. -/
def parseStringBody : List Char → List Char → Option (String × List Char)
  | _, [] => none
  | acc, '"' :: r => some (⟨acc.reverse⟩, r)
  | acc, '\\' :: e :: r =>
    if e = '"' then parseStringBody ('"' :: acc) r
    else if e = '\\' then parseStringBody ('\\' :: acc) r
    else if e = '/' then parseStringBody ('/' :: acc) r
    else if e = 'b' then parseStringBody ('\x08' :: acc) r
    else if e = 'f' then parseStringBody ('\x0c' :: acc) r
    else if e = 'n' then parseStringBody ('\n' :: acc) r
    else if e = 'r' then parseStringBody ('\r' :: acc) r
    else if e = 't' then parseStringBody ('\t' :: acc) r
    else if e = 'u' then
      match r with
      | h1 :: h2 :: h3 :: h4 :: r2 =>
        match hexVal h1, hexVal h2, hexVal h3, hexVal h4 with
        | some a, some b, some c, some d =>
          parseStringBody (Char.ofNat (((a * 16 + b) * 16 + c) * 16 + d) :: acc) r2
        | _, _, _, _ => none
      | _ => none
    else none
  | _, '\\' :: [] => none
  | acc, c :: r => if c.toNat < 32 then none else parseStringBody (c :: acc) r

/-- Digits to a natural number. -/
def digitsToNat (ds : List Char) : Nat := ds.foldl (fun a c => a * 10 + (c.toNat - 48)) 0

/-- Parse a JSON number (`-? int frac? exp?`, leading zeros rejected) into
an exact fraction. -/
def parseNumber (s : List Char) : Option (Json × List Char) :=
  let (neg, s1) : Bool × List Char := match s with
    | '-' :: r => (true, r)
    | _ => (false, s)
  let intDigits := s1.takeWhile Char.isDigit
  let s2 := s1.dropWhile Char.isDigit
  if intDigits.isEmpty then none
  else if 1 < intDigits.length ∧ intDigits.head? = some '0' then none
  else
    let fracPart : Option (List Char × List Char) := match s2 with
      | '.' :: r =>
        let ds := r.takeWhile Char.isDigit
        if ds.isEmpty then none else some (ds, r.dropWhile Char.isDigit)
      | _ => some ([], s2)
    match fracPart with
    | none => none
    | some (fracDigits, s3) =>
      let expPart : Option (Int × List Char) := match s3 with
        | c :: r =>
          if c = 'e' ∨ c = 'E' then
            let (esign, r2) : Int × List Char := match r with
              | '+' :: t => (1, t)
              | '-' :: t => (-1, t)
              | _ => (1, r)
            let eds := r2.takeWhile Char.isDigit
            if eds.isEmpty then none
            else some (esign * (digitsToNat eds : Int), r2.dropWhile Char.isDigit)
          else some (0, s3)
        | [] => some (0, [])
      match expPart with
      | none => none
      | some (ex, s4) =>
        let mant : Int := digitsToNat (intDigits ++ fracDigits)
        let mant := if neg then -mant else mant
        let den : Int := (10 : Int) ^ fracDigits.length
        let q : Frac :=
          if 0 ≤ ex then ⟨mant * (10 : Int) ^ ex.toNat, den⟩
          else ⟨mant, den * (10 : Int) ^ (-ex).toNat⟩
        some (.num q, s4)

/-- Parsing modes: a value, the elements of an array (after `[` and at
least one element), or the members of an object (after `{` and at least
one member). -/
inductive PMode where
  | value
  | elems (acc : List Json)
  | members (acc : List (String × Json))

/-- Recursive-descent JSON parsing with explicit fuel (structural
recursion, so concrete runs reduce in the kernel).  Mirrors `json.loads` on
the grammar: `null`/`true`/`false`, strings, numbers, arrays, objects with
string keys. -/
def parseJsonGo : Nat → PMode → List Char → Option (Json × List Char)
  | 0, _, _ => none
  | fuel + 1, .value, s =>
    match skipWs s with
    | 'n' :: 'u' :: 'l' :: 'l' :: rest => some (.null, rest)
    | 't' :: 'r' :: 'u' :: 'e' :: rest => some (.bool true, rest)
    | 'f' :: 'a' :: 'l' :: 's' :: 'e' :: rest => some (.bool false, rest)
    | '"' :: rest => (parseStringBody [] rest).map (fun p => (.str p.1, p.2))
    | '\x5b' :: rest =>
      match skipWs rest with
      | ']' :: rest2 => some (.arr [], rest2)
      | rest2 => parseJsonGo fuel (.elems []) rest2
    | '\x7b' :: rest =>
      match skipWs rest with
      | '\x7d' :: rest2 => some (.obj [], rest2)
      | rest2 => parseJsonGo fuel (.members []) rest2
    | rest => parseNumber rest
  | fuel + 1, .elems acc, s =>
    match parseJsonGo fuel .value s with
    | none => none
    | some (v, rest) =>
      match skipWs rest with
      | ',' :: rest2 => parseJsonGo fuel (.elems (acc ++ [v])) rest2
      | ']' :: rest2 => some (.arr (acc ++ [v]), rest2)
      | _ => none
  | fuel + 1, .members acc, s =>
    match skipWs s with
    | '"' :: rest =>
      match parseStringBody [] rest with
      | none => none
      | some (k, rest1) =>
        match skipWs rest1 with
        | ':' :: rest2 =>
          match parseJsonGo fuel .value rest2 with
          | none => none
          | some (v, rest3) =>
            match skipWs rest3 with
            | ',' :: rest4 => parseJsonGo fuel (.members (acc ++ [(k, v)])) rest4
            | '\x7d' :: rest4 => some (.obj (acc ++ [(k, v)]), rest4)
            | _ => none
        | _ => none
    | _ => none

/-- `json.loads`: parse one value and require only trailing whitespace. -/
def json_loads (s : List Char) : Option Json :=
  match parseJsonGo (2 * s.length + 4) .value s with
  | some (v, rest) => if (skipWs rest).isEmpty then some v else none
  | none => none

/-- Python `dict.get(key, default)` on a parsed JSON object; with duplicate
keys `json.loads` keeps the last occurrence, hence the reverse lookup. -/
def objGet (kvs : List (String × Json)) (key : String) (dflt : Json) : Json :=
  match kvs.reverse.lookup key with
  | some v => v
  | none => dflt

/-! ## Output Normalizer (`crew.PropertyAnalysisCrew._parse_agent_output`) -/

/-- `models.AgentOutput` (pydantic): integer score, rationale string, note
list. -/
structure AgentOutput where
  score_1_to_100 : ℤ
  rationale : String
  notes : List String
deriving DecidableEq

/-- The Python value a JSON field presents to `to_int_1_100` (`round`
accepts numbers and booleans, raises `TypeError` on anything else). -/
def jsonToPyVal : Json → PyVal
  | .null => .none
  | .bool b => .num (Frac.ofInt (if b then 1 else 0))
  | .num q => .num q
  | .str s => .str s
  | .arr _ => .other
  | .obj _ => .other

/-- pydantic validation of the `rationale` field: it must be a string. -/
def asStr : Json → Option String
  | .str s => some s
  | _ => none

/-- pydantic validation of the `notes` field: a list of strings. -/
def asStrList : Json → Option (List String)
  | .arr xs => xs.mapM asStr
  | _ => none

/-- Outcome of the `try` body of `_parse_agent_output`. -/
inductive ParseOutcome where
  | ok (o : AgentOutput)
  | error (msg : String)
deriving DecidableEq

/-- The `try` body of `_parse_agent_output`: extract, `json.loads`, read
the three fields with their defaults, validate.  The error strings stand in
for `str(e)` of the Python exception (`json.JSONDecodeError`,
`AttributeError` on a non-object, pydantic `ValidationError`). -/
def parse_agent_output_core (raw : String) : ParseOutcome :=
  let json_str := extract_json_str raw.data
  match json_loads json_str with
  | Option.none => .error "Expecting value: invalid JSON"
  | Option.some j =>
    match j with
    | .obj kvs =>
      let scoreJ := objGet kvs "score_1_to_100" (.num (Frac.ofInt 50))
      let ratJ := objGet kvs "rationale" (.str "No rationale provided")
      let notesJ := objGet kvs "notes" (.arr [])
      match asStr ratJ, asStrList notesJ with
      | some rat, some notes => .ok ⟨to_int_1_100 (jsonToPyVal scoreJ), rat, notes⟩
      | _, _ => .error "validation error for AgentOutput"
    | _ => .error "object has no attribute get"

/-- `PropertyAnalysisCrew._parse_agent_output`: any failure of the `try`
body is caught and replaced by the neutral fallback record. -/
def parse_agent_output (raw : String) : AgentOutput :=
  match parse_agent_output_core raw with
  | .ok o => o
  | .error e => ⟨50, "Parse error: " ++ e, ["Failed to parse agent response"]⟩

/-! ## Specialist Scheduler (`crew.PropertyAnalysisCrew.run_specialists`)

The embedding covers the observable parts of `run_specialists`: the
`outputs` and `raw_outputs` maps, the `serper_missing` flag and the
`la_city_records` payload.  The prompt-context strings
(`listing_details`, `location_details`, `news_context`) are pure string
formatting that flows only into the prompt text handed to the crew
runtime, which the `crewBatch` oracle abstracts, and no claim mentions
them, so they are not carried in the embedded result.  Python iterates
`skipped_agents` (a set difference) in unspecified order; the embedding
normalizes that iteration to canonical key order, which none of the
lookup-based statements below can distinguish. -/

/-- `crew.ALL_AGENT_KEYS`. -/
def ALL_AGENT_KEYS : List String := ["investment", "location", "news", "vc_risk", "construction"]

/-- The listing fields `run_specialists`' control flow reads. -/
structure ListingM where
  address : Option String
  city : Option String
  state : Option String
  property_type : Option String
deriving DecidableEq

/-- Python truthiness of an optional string (`None` and `""` are falsy). -/
def truthy : Option String → Bool
  | some s => !s.isEmpty
  | none => false

/-- `PropertyAnalysisCrew._build_news_query`: city, state (if distinct),
property type, then `"commercial real estate"`, joined and stripped. -/
def build_news_query (l : ListingM) : String :=
  let parts1 : List String := if truthy l.city then [l.city.getD ""] else []
  let parts2 : List String :=
    if truthy l.state ∧ ¬ parts1.contains (l.state.getD "") then parts1 ++ [l.state.getD ""]
    else parts1
  let parts3 : List String :=
    if truthy l.property_type then parts2 ++ [l.property_type.getD ""] else parts2
  let parts4 := parts3 ++ ["commercial real estate"]
  ⟨pyStripChars (String.intercalate " " (parts4.filter (fun p => p ≠ ""))).data⟩

/-- What `fetch_la_city_records` can raise: `LASocrataError`, `ValueError`
(from `fetch_all`'s precondition or a missing listing address), or any
other exception — `run_specialists` swallows all three. -/
inductive LAFetchErr where
  | socrata (msg : String)
  | valueError (msg : String)
  | other (msg : String)
deriving DecidableEq

/-- Result of `fetch_la_city_records(listing)`. -/
inductive LAFetchResult where
  | ok (b : LABundle)
  | error (e : LAFetchErr)
deriving DecidableEq

/-- The external world as `run_specialists` sees it: the LA records fetch,
the `json.dumps` rendering of its bundle, the `note` field of
`search_news(query, 8)`, and the crew batch (one raw text per submitted
task label, in submission order). -/
structure CrewOracle where
  laFetch : LAFetchResult
  laDump : String
  serperNote : String → Option String
  crewBatch : List String → List String

/-- The neutral output synthesized when the Serper key is missing. -/
def serperMissingOutput : AgentOutput :=
  ⟨50, "Serper API key missing; defaulting to neutral score.",
   ["Set SERPER_API_KEY to enable news sentiment analysis.",
    "Without news signals, rely on other agents for sentiment."]⟩

/-- The default for an agent the user did not select. -/
def notSelectedOutput : AgentOutput :=
  ⟨50, "Agent not selected for this run; using neutral score.", ["Agent skipped by user"]⟩

/-- The default for an enabled agent whose output is missing. -/
def failedOutput : AgentOutput :=
  ⟨50, "Agent failed to produce output; defaulting to neutral score.",
   ["Check agent configuration or API responses."]⟩

/-- Python `dict[k] = v` on an insertion-ordered association list: replace
in place when the key exists, else append. -/
def dictSet {α : Type} (m : List (String × α)) (k : String) (v : α) : List (String × α) :=
  if (m.lookup k).isSome then m.map (fun kv => if kv.1 = k then (k, v) else kv)
  else m ++ [(k, v)]

/-- `set(enabled_agents) if enabled_agents else set(ALL_AGENT_KEYS)`: both
`None` and the empty sequence are falsy and mean "all agents". -/
def enabledSetOf : Option (List String) → List String
  | Option.none => ALL_AGENT_KEYS
  | Option.some [] => ALL_AGENT_KEYS
  | Option.some l => l

/-- The embedded `SpecialistResult` (see the section comment for the
omitted prompt-context strings). -/
structure SpecialistResultM where
  outputs : List (String × AgentOutput)
  raw_outputs : List (String × String)
  serper_missing : Bool
  la_city_records : Option LABundle
deriving DecidableEq

/-- One step of the crew-output collection loop: store the raw text and its
parsed output under the task's label. -/
def collectStep (acc : List (String × AgentOutput) × List (String × String))
    (lr : String × String) :
    List (String × AgentOutput) × List (String × String) :=
  (dictSet acc.1 lr.1 (parse_agent_output lr.2), dictSet acc.2 lr.1 lr.2)

/-- One step of the default-fill loop over the canonical keys: a key that
already has an output is left alone; a non-enabled key gets the
not-selected default; the `news`/`serper_missing` case was populated
earlier (`continue`); any other missing key gets the failure default. -/
def fillDefaults (enabled_set : List String) (serper_missing : Bool)
    (acc : List (String × AgentOutput) × List (String × String)) (k : String) :
    List (String × AgentOutput) × List (String × String) :=
  if (acc.1.lookup k).isSome then acc
  else if ¬ enabled_set.contains k then
    (acc.1 ++ [(k, notSelectedOutput)], acc.2 ++ [(k, "Agent skipped")])
  else if k = "news" ∧ serper_missing then acc
  else (acc.1 ++ [(k, failedOutput)], acc.2 ++ [(k, "Agent output missing")])

/-- `PropertyAnalysisCrew.run_specialists`: resolve the enabled set, fetch
LA records when applicable (swallowing any error), handle the Serper
missing-key short-circuit, submit one task per remaining enabled specialist
in canonical order, collect the batch outputs through the Output
Normalizer, and fill defaults for every canonical key still missing. -/
def run_specialists (l : ListingM) (enabled_agents : Option (List String)) (o : CrewOracle) :
    SpecialistResultM :=
  let enabled_set := enabledSetOf enabled_agents
  let include_la_city :=
    truthy l.address && (enabled_agents.isNone || enabled_set.contains "la_city")
  let la_city_records : Option LABundle :=
    if include_la_city && truthy l.address then
      match o.laFetch with
      | .ok b => some b
      | .error _ => none
    else none
  let raw0 : List (String × String) :=
    match la_city_records with
    | some _ => [("la_city_records", o.laDump)]
    | none => []
  let newsEnabled := enabled_set.contains "news"
  let note := if newsEnabled then o.serperNote (build_news_query l) else none
  let serper_missing := newsEnabled && note == some "SERPER_API_KEY missing"
  let outputs1 : List (String × AgentOutput) :=
    if serper_missing then [("news", serperMissingOutput)] else []
  let raw1 : List (String × String) :=
    if serper_missing then raw0 ++ [("news", "Serper API key missing")] else raw0
  let task_labels : List String :=
    (if enabled_set.contains "investment" then ["investment"] else []) ++
    (if enabled_set.contains "location" then ["location"] else []) ++
    (if newsEnabled && !serper_missing then ["news"] else []) ++
    (if enabled_set.contains "vc_risk" then ["vc_risk"] else []) ++
    (if enabled_set.contains "construction" then ["construction"] else [])
  let raws := if task_labels.isEmpty then [] else o.crewBatch task_labels
  let outs2 := (task_labels.zip raws).foldl collectStep (outputs1, raw1)
  let outs3 := ALL_AGENT_KEYS.foldl (fillDefaults enabled_set serper_missing) outs2
  ⟨outs3.1, outs3.2, serper_missing, la_city_records⟩

/-- A concrete listing for the witnesses. -/
def exampleListing : ListingM :=
  ⟨some "428 Alaska Ave", some "Los Angeles", some "CA", some "Office"⟩

/-- A concrete oracle for the witnesses: the LA fetch raises `ValueError`,
Serper returns no note, and every crew task answers with unparseable
text. -/
def exampleOracle : CrewOracle :=
  ⟨.error (.valueError "address must be provided"), "",
   fun _ => none, fun labels => labels.map (fun _ => "not json at all")⟩

/-! # Theorems -/

/-! ## Helper lemmas -/

/-- Retryable statuses are all ≥ 400 (so `raise_for_status` throws). -/
theorem mem_retry_ge (s : Nat) (h : s ∈ RETRY_STATUSES) : 400 ≤ s := by
  simp [RETRY_STATUSES] at h
  omega

/-- The loop performs at most `remaining` iterations. -/
theorem fetchDatasetGo_attempts_le (net : Nat → AttemptResponses) (dsid : String)
    (retries : Nat) : ∀ attempt remaining,
    (fetchDatasetGo net dsid retries attempt remaining).attempts ≤ remaining := by
  intro attempt remaining
  induction remaining generalizing attempt with
  | zero => simp [fetchDatasetGo]
  | succ r ih =>
    simp only [fetchDatasetGo]
    split
    · split
      · simpa using ih (attempt + 1)
      · simp
    · split <;> simp

/-- A non-exhausted loop performs at least one iteration. -/
theorem fetchDatasetGo_attempts_pos (net : Nat → AttemptResponses) (dsid : String)
    (retries : Nat) : ∀ attempt r,
    1 ≤ (fetchDatasetGo net dsid retries attempt (r + 1)).attempts := by
  intro attempt r
  simp only [fetchDatasetGo]
  split
  · split <;> simp
  · split <;> simp

/-- Along the loop invariant `attempt + remaining = retries + 1`, the sleeps
are exactly `15 * (attempt + i + 1)` for `i < attempts - 1`: one per
iteration that retried, with linearly increasing duration. -/
theorem fetchDatasetGo_sleeps_linear (net : Nat → AttemptResponses) (dsid : String)
    (retries : Nat) : ∀ attempt remaining, attempt + remaining = retries + 1 →
    (fetchDatasetGo net dsid retries attempt remaining).sleeps =
      (List.range ((fetchDatasetGo net dsid retries attempt remaining).attempts - 1)).map
        (fun i => 15 * (attempt + i + 1)) := by
  intro attempt remaining
  induction remaining generalizing attempt with
  | zero => intro _; simp [fetchDatasetGo]
  | succ r ih =>
    intro hsum
    simp only [fetchDatasetGo]
    split
    · split
      case isTrue hcond =>
        obtain ⟨rp, rfl⟩ : ∃ rp, r = rp + 1 := ⟨r - 1, by omega⟩
        have h := ih (attempt + 1) (by omega)
        have hpos := fetchDatasetGo_attempts_pos net dsid retries (attempt + 1) rp
        obtain ⟨m, hm⟩ : ∃ m,
            (fetchDatasetGo net dsid retries (attempt + 1) (rp + 1)).attempts = m + 1 :=
          ⟨(fetchDatasetGo net dsid retries (attempt + 1) (rp + 1)).attempts - 1, by omega⟩
        simp only [hm, Nat.succ_sub_one] at h
        simp only [h, hm, Nat.add_sub_cancel]
        rw [List.range_succ_eq_map]
        simp only [List.map_cons, List.map_map, Nat.add_zero]
        congr 1
        apply List.map_congr_left
        intro i _
        simp only [Function.comp_apply]
        omega
      case isFalse => simp
    · split <;> simp

/-- What the dataset fold computes, for any dataset list and accumulator. -/
theorem fetchAll_foldl_spec (outcome : DatasetConfig → FetchResult) :
    ∀ (l : List DatasetConfig)
      (acc : List (String × List Nat) × List (String × Nat) × List (String × String)),
    l.foldl (fetchAllStep outcome) acc =
      (acc.1 ++ l.map (fun cfg => (cfg.result_key, rowsOf outcome cfg)),
       acc.2.1 ++ l.map (fun cfg => (cfg.result_key, (rowsOf outcome cfg).length)),
       acc.2.2 ++ l.filterMap (fun cfg => (errOf outcome cfg).map (fun m => (cfg.result_key, m)))) := by
  intro l
  induction l with
  | nil => intro acc; simp
  | cons a t ih =>
    intro acc
    rcases hout : outcome a with rows | e
    · simp [List.foldl_cons, ih, fetchAllStep, hout, rowsOf, errOf]
    · simp [List.foldl_cons, ih, fetchAllStep, hout, rowsOf, errOf]

/-- Looking a key up in a keyed map of a list with pairwise-distinct keys
finds the entry of the matching element. -/
theorem lookup_keyed_map {β : Type} (key : DatasetConfig → String) (f : DatasetConfig → β) :
    ∀ (l : List DatasetConfig) (cfg : DatasetConfig), cfg ∈ l → (l.map key).Nodup →
    (l.map (fun c => (key c, f c))).lookup (key cfg) = some (f cfg) := by
  intro l
  induction l with
  | nil => intro cfg h; exact absurd h (List.not_mem_nil cfg)
  | cons a t ih =>
    intro cfg hmem hnd
    simp only [List.map_cons, List.nodup_cons] at hnd
    rcases List.mem_cons.mp hmem with rfl | hmem'
    · simp [List.lookup]
    · have hne : key a ≠ key cfg := by
        intro hEq
        exact hnd.1 (hEq ▸ List.mem_map_of_mem key hmem')
      have : (key cfg == key a) = false := by
        simp [beq_eq_false_iff_ne]
        exact fun hEq => hne hEq.symm
      simp only [List.map_cons, List.lookup, this]
      exact ih cfg hmem' hnd.2

/-- Looking a key up in the keyed `filterMap` of a list with
pairwise-distinct keys finds the value of the matching element, when that
element contributes one. -/
theorem lookup_keyed_filterMap (key : DatasetConfig → String) (g : DatasetConfig → Option String) :
    ∀ (l : List DatasetConfig) (cfg : DatasetConfig) (v : String),
    cfg ∈ l → (l.map key).Nodup → g cfg = some v →
    (l.filterMap (fun c => (g c).map (fun m => (key c, m)))).lookup (key cfg) = some v := by
  intro l
  induction l with
  | nil => intro cfg v h; exact absurd h (List.not_mem_nil cfg)
  | cons a t ih =>
    intro cfg v hmem hnd hv
    simp only [List.map_cons, List.nodup_cons] at hnd
    rcases List.mem_cons.mp hmem with rfl | hmem'
    · simp [List.filterMap_cons, hv, List.lookup]
    · have hne : key a ≠ key cfg := by
        intro hEq
        exact hnd.1 (hEq ▸ List.mem_map_of_mem key hmem')
      have hbeq : (key cfg == key a) = false := by
        simp [beq_eq_false_iff_ne]
        exact fun hEq => hne hEq.symm
      rcases hga : g a with _ | w
      · simp only [List.filterMap_cons, hga, Option.map_none]
        exact ih cfg v hmem' hnd.2 hv
      · simp only [List.filterMap_cons, hga, Option.map_some, List.lookup, hbeq]
        exact ih cfg v hmem' hnd.2 hv

/-- `List.lookup` on a cons cell, with a propositional condition. -/
theorem lookup_cons {α : Type} (p : String × α) (t : List (String × α)) (k : String) :
    ((p :: t).lookup k) = if k = p.1 then some p.2 else t.lookup k := by
  by_cases h : k = p.1
  · have hb : (k == p.1) = true := by simp [h]
    simp [List.lookup, hb, h]
  · have hb : (k == p.1) = false := by simp [h]
    simp [List.lookup, hb, h]

/-- Looking up `k` after appending a single entry: the entry is seen only
when `k` was absent and matches the appended key. -/
theorem lookup_append_single {α : Type} (m : List (String × α)) (k k2 : String) (v : α) :
    (m ++ [(k2, v)]).lookup k =
      match m.lookup k with
      | some w => some w
      | none => if k = k2 then some v else none := by
  induction m with
  | nil =>
    by_cases h : k = k2
    · have hb : (k == k2) = true := by simp [h]
      simp [List.lookup, hb, h]
    · have hb : (k == k2) = false := by simp [h]
      simp [List.lookup, hb, h]
  | cons a t ih =>
    rw [List.cons_append, lookup_cons, lookup_cons]
    by_cases h : k = a.1 <;> simp [h, ih]

/-- Replacing the value stored under `k1` leaves every other key alone. -/
theorem lookup_replace {α : Type} (m : List (String × α)) (k1 k : String) (v : α)
    (h : k ≠ k1) :
    (m.map (fun kv => if kv.1 = k1 then (k1, v) else kv)).lookup k = m.lookup k := by
  induction m with
  | nil => rfl
  | cons a t ih =>
    by_cases ha : a.1 = k1
    · simp only [List.map_cons, if_pos ha, lookup_cons, ih]
      rw [ha]
      simp [h]
    · simp only [List.map_cons, if_neg ha, lookup_cons, ih]

/-- Replacing the value stored under a bound key `k` stores `v` there. -/
theorem lookup_replace_self {α : Type} (m : List (String × α)) (k : String) (v : α)
    (h : (m.lookup k).isSome) :
    (m.map (fun kv => if kv.1 = k then (k, v) else kv)).lookup k = some v := by
  induction m with
  | nil => simp [List.lookup] at h
  | cons a t ih =>
    by_cases ha : a.1 = k
    · simp [List.map_cons, if_pos ha, lookup_cons]
    · have hka : ¬ k = a.1 := fun hEq => ha hEq.symm
      rw [lookup_cons, if_neg hka] at h
      simp only [List.map_cons, if_neg ha, lookup_cons, if_neg hka]
      exact ih h

/-- `dictSet` leaves the binding of every other key unchanged. -/
theorem lookup_dictSet_other {α : Type} (m : List (String × α)) (k1 k : String) (v : α)
    (h : k ≠ k1) : (dictSet m k1 v).lookup k = m.lookup k := by
  unfold dictSet
  split
  · exact lookup_replace m k1 k v h
  · rw [lookup_append_single]
    cases hm : m.lookup k with
    | some w => rfl
    | none => simp [h]

/-- After `dictSet m k v`, key `k` is bound. -/
theorem lookup_dictSet_self_isSome {α : Type} (m : List (String × α)) (k : String) (v : α) :
    ((dictSet m k v).lookup k).isSome := by
  unfold dictSet
  split
  case isTrue h => rw [lookup_replace_self m k v h]; rfl
  case isFalse h =>
    rw [lookup_append_single]
    rw [Option.not_isSome_iff_eq_none] at h
    rw [h]
    simp

/-- `dictSet` binds exactly the old keys plus the inserted one. -/
theorem lookup_dictSet_isSome_iff {α : Type} (m : List (String × α)) (k1 k : String) (v : α) :
    ((dictSet m k1 v).lookup k).isSome ↔ (m.lookup k).isSome ∨ k = k1 := by
  by_cases h : k = k1
  · subst h
    simp [lookup_dictSet_self_isSome]
  · rw [lookup_dictSet_other m k1 k v h]
    simp [h]

/-- Collecting crew outputs does not touch labels outside the batch. -/
theorem collect_foldl_lookup_not_mem :
    ∀ (ps : List (String × String)) (acc : List (String × AgentOutput) × List (String × String))
      (k : String), k ∉ ps.map Prod.fst →
    ((ps.foldl collectStep acc).1.lookup k) = acc.1.lookup k := by
  intro ps
  induction ps with
  | nil => intro acc k _; rfl
  | cons p t ih =>
    intro acc k hk
    simp only [List.map_cons, List.mem_cons, not_or] at hk
    rw [List.foldl_cons, ih _ k hk.2]
    exact lookup_dictSet_other acc.1 p.1 k _ hk.1

/-- After collecting, a label is bound iff it was bound before or occurs in
the batch. -/
theorem collect_foldl_isSome :
    ∀ (ps : List (String × String)) (acc : List (String × AgentOutput) × List (String × String))
      (k : String),
    (((ps.foldl collectStep acc).1.lookup k).isSome) ↔
      (acc.1.lookup k).isSome ∨ k ∈ ps.map Prod.fst := by
  intro ps
  induction ps with
  | nil => intro acc k; simp
  | cons p t ih =>
    intro acc k
    rw [List.foldl_cons, ih]
    show ((dictSet acc.1 p.1 _).lookup k).isSome ∨ _ ↔ _
    rw [lookup_dictSet_isSome_iff]
    simp only [List.map_cons, List.mem_cons]
    tauto

/-- The default-fill loop preserves every existing binding. -/
theorem fill_preserves (es : List String) (sm : Bool) :
    ∀ (keys : List String) (acc : List (String × AgentOutput) × List (String × String))
      (k : String) (w : AgentOutput), acc.1.lookup k = some w →
    ((keys.foldl (fillDefaults es sm) acc).1.lookup k) = some w := by
  intro keys
  induction keys with
  | nil => intro acc k w h; exact h
  | cons a t ih =>
    intro acc k w h
    rw [List.foldl_cons]
    apply ih
    unfold fillDefaults
    split
    · exact h
    · split
      · rw [lookup_append_single, h]
      · split
        · exact h
        · rw [lookup_append_single, h]

/-- One fill step binds the processed key, except in the
`news`-with-missing-Serper case. -/
theorem fillDefaults_self_isSome (es : List String) (sm : Bool)
    (acc : List (String × AgentOutput) × List (String × String)) (k : String)
    (hns : ¬(k = "news" ∧ sm = true)) :
    (((fillDefaults es sm acc k).1.lookup k).isSome) := by
  unfold fillDefaults
  by_cases h1 : (acc.1.lookup k).isSome = true
  · rw [if_pos h1]
    exact h1
  · rw [if_neg h1]
    rw [Option.not_isSome_iff_eq_none] at h1
    by_cases h2 : ¬ es.contains k = true
    · rw [if_pos h2, lookup_append_single, h1]
      simp
    · rw [if_neg h2, if_neg hns, lookup_append_single, h1]
      simp

/-- One fill step binds no key other than the one it processed. -/
theorem fillDefaults_isSome_cases (es : List String) (sm : Bool)
    (acc : List (String × AgentOutput) × List (String × String)) (a k : String)
    (h : ((fillDefaults es sm acc a).1.lookup k).isSome) :
    (acc.1.lookup k).isSome ∨ k = a := by
  revert h
  unfold fillDefaults
  split
  · exact Or.inl
  · split
    · rw [lookup_append_single]
      cases hm : acc.1.lookup k with
      | some w => intro _; exact Or.inl rfl
      | none =>
        by_cases hak : k = a
        · intro _; exact Or.inr hak
        · simp [hak]
    · split
      · exact Or.inl
      · rw [lookup_append_single]
        cases hm : acc.1.lookup k with
        | some w => intro _; exact Or.inl rfl
        | none =>
          by_cases hak : k = a
          · intro _; exact Or.inr hak
          · simp [hak]

/-- One fill step leaves an absent key absent when it processes another
key. -/
theorem fillDefaults_none_other (es : List String) (sm : Bool)
    (acc : List (String × AgentOutput) × List (String × String)) (a k : String)
    (hak : k ≠ a) (h : acc.1.lookup k = none) :
    (fillDefaults es sm acc a).1.lookup k = none := by
  unfold fillDefaults
  split
  · exact h
  · split
    · rw [lookup_append_single, h]
      simp [hak]
    · split
      · exact h
      · rw [lookup_append_single, h]
        simp [hak]

/-- The default-fill loop binds every processed key, except the
`news`-with-missing-Serper case (which was bound beforehand anyway). -/
theorem fill_isSome_of_mem (es : List String) (sm : Bool) :
    ∀ (keys : List String) (acc : List (String × AgentOutput) × List (String × String))
      (k : String), k ∈ keys → ¬(k = "news" ∧ sm = true) →
    (((keys.foldl (fillDefaults es sm) acc).1.lookup k).isSome) := by
  intro keys
  induction keys with
  | nil => intro acc k h; exact absurd h (List.not_mem_nil k)
  | cons a t ih =>
    intro acc k hk hns
    rcases List.mem_cons.mp hk with rfl | hk'
    · rw [List.foldl_cons]
      have h1 := fillDefaults_self_isSome es sm acc k hns
      obtain ⟨w, hw⟩ := Option.isSome_iff_exists.mp h1
      rw [fill_preserves es sm t _ k w hw]
      rfl
    · rw [List.foldl_cons]
      exact ih _ k hk' hns

/-- The default-fill loop introduces no key outside those it processes. -/
theorem fill_domain (es : List String) (sm : Bool) :
    ∀ (keys : List String) (acc : List (String × AgentOutput) × List (String × String))
      (k : String),
    (((keys.foldl (fillDefaults es sm) acc).1.lookup k).isSome) →
    (acc.1.lookup k).isSome ∨ k ∈ keys := by
  intro keys
  induction keys with
  | nil => intro acc k h; exact Or.inl h
  | cons a t ih =>
    intro acc k h
    rw [List.foldl_cons] at h
    rcases ih _ k h with h2 | h2
    · rcases fillDefaults_isSome_cases es sm acc a k h2 with h3 | h3
      · exact Or.inl h3
      · exact Or.inr (by simp [h3])
    · exact Or.inr (List.mem_cons_of_mem a h2)

/-- A canonical key that is absent from the collected outputs and not
enabled receives exactly the not-selected default. -/
theorem fill_not_selected (es : List String) (sm : Bool) :
    ∀ (keys : List String), keys.Nodup →
    ∀ (acc : List (String × AgentOutput) × List (String × String)) (k : String),
    k ∈ keys → acc.1.lookup k = none → es.contains k = false →
    ((keys.foldl (fillDefaults es sm) acc).1.lookup k) = some notSelectedOutput := by
  intro keys
  induction keys with
  | nil => intro _ acc k h; exact absurd h (List.not_mem_nil k)
  | cons a t ih =>
    intro hnd acc k hk hnone hes
    rw [List.nodup_cons] at hnd
    rcases List.mem_cons.mp hk with rfl | hk'
    · rw [List.foldl_cons]
      have hstep : (fillDefaults es sm acc k).1.lookup k = some notSelectedOutput := by
        unfold fillDefaults
        rw [if_neg (by rw [hnone]; simp),
          if_pos (show ¬ es.contains k = true by rw [hes]; exact Bool.false_ne_true)]
        rw [lookup_append_single, hnone]
        simp
      exact fill_preserves es sm t _ k notSelectedOutput hstep
    · have hka : k ≠ a := fun hEq => hnd.1 (hEq ▸ hk')
      rw [List.foldl_cons]
      exact ih hnd.2 _ k hk' (fillDefaults_none_other es sm acc a k hka hnone) hes

/-- A key occurring among the zipped pair keys occurs in the label list. -/
theorem mem_map_fst_zip {α β : Type _} :
    ∀ (l₁ : List α) (l₂ : List β) (k : α), k ∈ (l₁.zip l₂).map Prod.fst → k ∈ l₁ := by
  intro l₁
  induction l₁ with
  | nil => intro l₂ k h; simp at h
  | cons a t ih =>
    intro l₂ k h
    cases l₂ with
    | nil => simp at h
    | cons b t2 =>
      simp only [List.zip_cons_cons, List.map_cons, List.mem_cons] at h
      rcases h with rfl | h
      · exact List.mem_cons_self _ _
      · exact List.mem_cons_of_mem a (ih t2 k h)

/-- Membership in a conditional singleton forces the condition and the
value. -/
theorem mem_ite_singleton {α : Type} (c : Bool) (x k : α)
    (h : k ∈ (if c = true then [x] else [])) : c = true ∧ k = x := by
  cases c with
  | false => simp at h
  | true =>
    simp at h
    exact ⟨rfl, h⟩

/-! ## Claim theorems and witnesses -/

/-- C1, refutation: on the spec's worked example the weighted average is
`72.25`, which rounds to 72 — `weighted_overall` does not return 73. -/
theorem C1_counterexample : weighted_overall exampleScores exampleWeights ≠ 73 := by
  decide

/-- C1, amended: on the spec's worked example `weighted_overall` returns 72,
i.e. the round of the exact weighted average
`80·0.3 + 70·0.25 + 60·0.1 + 75·0.2 + 65·0.15 = 72.25 = 289/4`. -/
theorem C1_weighted_overall_example :
    weighted_overall exampleScores exampleWeights = 72 ∧ roundHalfEven 289 4 = 72 := by
  exact ⟨by decide, by decide⟩

/-- C4: `to_int_1_100` is total (it returns an integer on every `PyVal`);
on a number it is exactly round-then-clamp and lands in `[1,100]`; on
`None` and on non-numeric input (e.g. the string `"abc"`) it returns 50;
`to_int_1_100 150 = 100` and `to_int_1_100 (-5) = 1`. -/
theorem C4_to_int_1_100_total_and_clamped :
    (∀ q : Frac, to_int_1_100 (.num q) = max 1 (min 100 q.pyRound) ∧
      1 ≤ to_int_1_100 (.num q) ∧ to_int_1_100 (.num q) ≤ 100) ∧
    to_int_1_100 .none = 50 ∧
    to_int_1_100 (.str "abc") = 50 ∧
    to_int_1_100 (.num (Frac.ofInt 150)) = 100 ∧
    to_int_1_100 (.num (Frac.ofInt (-5))) = 1 := by
  refine ⟨fun q => ⟨rfl, ?_, ?_⟩, rfl, rfl, by decide, by decide⟩
  · exact le_max_left 1 _
  · exact max_le (by norm_num) (min_le_left 100 _)

/-- C9: both degenerate cases of `weighted_overall` return 50 — an empty
score map (first guard) and an empty weight map (zero weight total). -/
theorem C9_weighted_overall_degenerate :
    (∀ w : List (String × Frac), weighted_overall [] w = 50) ∧
    (∀ s : List (String × ℤ), weighted_overall s [] = 50) := by
  constructor
  · intro w
    simp [weighted_overall]
  · intro s
    rcases s with _ | ⟨p, t⟩
    · simp [weighted_overall]
    · simp only [weighted_overall, if_neg (List.cons_ne_nil p t), List.foldl_nil]
      decide

/-- C8, refutation: on the `eq_numeric` dataset (`coo`), a non-numeric zip
is *not* omitted — the `else` branch of `_build_where_clause` falls back to
a `like` prefix clause. -/
theorem C8_counterexample :
    build_where_clause ⟨"3f9m-afei", [("zip_code", "eq_numeric")], "coo"⟩ (some "abc") =
      some "zip_code like \x27abc%\x27" ∧
    build_where_clause ⟨"3f9m-afei", [("zip_code", "eq_numeric")], "coo"⟩ (some "abc") ≠
      none := by
  exact ⟨by decide, by decide⟩

/-- C8, amended: prefix mode on field `zip` with zip `"91403"` builds
exactly `zip like '91403%'`; and `eq_numeric` mode with a non-numeric zip
falls back to the same quoted prefix-match clause (it is not omitted). -/
theorem C8_where_clause :
    build_where_clause ⟨"u82d-eh7z", [("zip", "like_prefix")], "code_open"⟩ (some "91403") =
      some "zip like \x2791403%\x27" ∧
    (∀ z : String, pyIsDigit z = false → z ≠ "" → z.data.all (fun c => c ≠ '\x27') →
      build_where_clause ⟨"3f9m-afei", [("zip_code", "eq_numeric")], "coo"⟩ (some z) =
        some ("zip_code like \x27" ++ z ++ "%\x27")) := by
  constructor
  · decide
  · intro z hdig hne hq
    have hesc : escapeSingleQuotes z = z := by
      have : ∀ l : List Char, l.all (fun c => c ≠ '\x27') →
          l.foldr (fun c acc => if c = '\x27' then '\x27' :: '\x27' :: acc else c :: acc) [] = l := by
        intro l hl
        induction l with
        | nil => rfl
        | cons c cs ih =>
          simp only [List.all_cons, Bool.and_eq_true, decide_eq_true_eq] at hl
          simp [List.foldr, hl.1, ih hl.2]
      unfold escapeSingleQuotes
      rcases z with ⟨data⟩
      simp [this data hq]
    simp only [build_where_clause, if_neg hne, hesc]
    simp only [List.foldl, hdig, String.intercalate]
    simp
    rfl

/-- C8 (amended) witness: zip `"9140A"` is not numeric, so the `coo`
dataset's clause is the prefix match `zip_code like '9140A%'`. -/
theorem C8_where_clause_witness :
    build_where_clause ⟨"3f9m-afei", [("zip_code", "eq_numeric")], "coo"⟩ (some "9140A") =
      some ("zip_code like \x27" ++ "9140A" ++ "%\x27") :=
  C8_where_clause.2 "9140A" (by decide) (by decide) (by decide)

/-- C7: with the default retry bound (2 extra attempts), `_fetch_dataset`
performs at most 3 request rounds; the backoff sleeps are the linearly
increasing sequence `1.5s, 3.0s, …` (one per retried round); three
consecutive retryable statuses exhaust the retries and record the final
status as the dataset's error after exactly 2 additional attempts; a ≥ 400
status outside {429, 500, 502, 503, 504} fails on the first round with no
retry and no sleep; and a success status with an invalid JSON payload also
fails on the first round with no retry. -/
theorem C7_retry_policy (net : Nat → AttemptResponses) (dsid : String) :
    (fetch_dataset net dsid DEFAULT_RETRIES).attempts ≤ 3 ∧
    ((fetch_dataset net dsid DEFAULT_RETRIES).sleeps =
      (List.range ((fetch_dataset net dsid DEFAULT_RETRIES).attempts - 1)).map
        (fun i => 15 * (i + 1))) ∧
    ((effectiveResponse (net 0)).status ∈ RETRY_STATUSES →
     (effectiveResponse (net 1)).status ∈ RETRY_STATUSES →
     (effectiveResponse (net 2)).status ∈ RETRY_STATUSES →
      fetch_dataset net dsid DEFAULT_RETRIES =
        ⟨.error (.httpStatus dsid (effectiveResponse (net 2)).status), 3, [15, 30]⟩) ∧
    (400 ≤ (effectiveResponse (net 0)).status →
     (effectiveResponse (net 0)).status ∉ RETRY_STATUSES →
      fetch_dataset net dsid DEFAULT_RETRIES =
        ⟨.error (.httpStatus dsid (effectiveResponse (net 0)).status), 1, []⟩) ∧
    ((effectiveResponse (net 0)).status < 400 →
     (effectiveResponse (net 0)).body = .invalid →
      fetch_dataset net dsid DEFAULT_RETRIES = ⟨.error (.invalidJson dsid), 1, []⟩) := by
  refine ⟨fetchDatasetGo_attempts_le net dsid DEFAULT_RETRIES 0 3, ?_, ?_, ?_, ?_⟩
  · have h := fetchDatasetGo_sleeps_linear net dsid DEFAULT_RETRIES 0 (DEFAULT_RETRIES + 1)
      (by norm_num)
    rw [fetch_dataset, h]
    apply List.map_congr_left
    intro i _
    omega
  · intro h0 h1 h2
    have g0 := mem_retry_ge _ h0
    have g1 := mem_retry_ge _ h1
    have g2 := mem_retry_ge _ h2
    simp only [fetch_dataset, DEFAULT_RETRIES, fetchDatasetGo]
    rw [if_pos g0, if_pos ⟨h0, by norm_num⟩, if_pos g1, if_pos ⟨h1, by norm_num⟩, if_pos g2,
      if_neg (by simp)]
  · intro h400 hnot
    simp only [fetch_dataset, DEFAULT_RETRIES, fetchDatasetGo]
    rw [if_pos h400, if_neg (by simp [hnot])]
  · intro hlt hbody
    simp only [fetch_dataset, DEFAULT_RETRIES, fetchDatasetGo]
    rw [if_neg (by omega)]
    rw [hbody]

/-- C7 witness: persistent 500s are retried twice (sleeping 1.5s then 3.0s)
and then recorded; a 404 and an invalid-JSON 200 both fail on the first
round without retrying. -/
theorem C7_retry_policy_witness :
    fetch_dataset netAll500 "pi9x-tg5x" DEFAULT_RETRIES =
      ⟨.error (.httpStatus "pi9x-tg5x" 500), 3, [15, 30]⟩ ∧
    fetch_dataset netAll404 "pi9x-tg5x" DEFAULT_RETRIES =
      ⟨.error (.httpStatus "pi9x-tg5x" 404), 1, []⟩ ∧
    fetch_dataset netBadJson "pi9x-tg5x" DEFAULT_RETRIES =
      ⟨.error (.invalidJson "pi9x-tg5x"), 1, []⟩ :=
  ⟨(C7_retry_policy netAll500 "pi9x-tg5x").2.2.1 (by decide) (by decide) (by decide),
   (C7_retry_policy netAll404 "pi9x-tg5x").2.2.2.1 (by decide) (by decide),
   (C7_retry_policy netBadJson "pi9x-tg5x").2.2.2.2 (by decide) (by decide)⟩

/-- C3: whenever the address is non-empty and the limit positive,
`fetch_all` returns a bundle no matter how the individual datasets behave:
its `results` carry one entry per configured dataset (in table order), and
every dataset whose fetch failed has its error message recorded under its
result key and an empty row list substituted — one failure never aborts the
bundle. -/
theorem C3_fetch_all_partial_failure (outcome : DatasetConfig → FetchResult)
    (address : String) (zip_code : Option String) (limit : Int)
    (haddr : address ≠ "") (hlim : 0 < limit) :
    fetch_all outcome address zip_code limit =
      .ok (fetchAllBundle outcome address zip_code limit) ∧
    (fetchAllBundle outcome address zip_code limit).results.map Prod.fst =
      DATASETS.map (fun cfg => cfg.result_key) ∧
    (∀ cfg ∈ DATASETS,
      (fetchAllBundle outcome address zip_code limit).results.lookup cfg.result_key =
        some (rowsOf outcome cfg)) ∧
    (∀ cfg ∈ DATASETS, ∀ e, outcome cfg = .error e →
      (fetchAllBundle outcome address zip_code limit).errors.lookup cfg.result_key =
          some e.message ∧
      (fetchAllBundle outcome address zip_code limit).results.lookup cfg.result_key =
          some []) := by
  have hnodup : (DATASETS.map (fun cfg => cfg.result_key)).Nodup := by decide
  refine ⟨?_, ?_, ?_, ?_⟩
  · simp only [fetch_all, if_neg haddr, if_neg (by omega : ¬limit ≤ 0)]
    rw [fetchAll_foldl_spec]
    simp [fetchAllBundle]
  · simp [fetchAllBundle, Function.comp]
  · intro cfg hmem
    exact lookup_keyed_map (fun c => c.result_key) (rowsOf outcome) DATASETS cfg hmem hnodup
  · intro cfg hmem e he
    constructor
    · exact lookup_keyed_filterMap (fun c => c.result_key) (errOf outcome) DATASETS cfg
        e.message hmem hnodup (by simp [errOf, he])
    · have h2 := lookup_keyed_map (fun c => c.result_key) (rowsOf outcome) DATASETS cfg hmem hnodup
      simp only [rowsOf, he] at h2
      exact h2

/-- C3 witness: with only the `coo` dataset failing, the bundle is returned
with all five result keys, `coo`'s error recorded and `coo`'s rows empty. -/
theorem C3_fetch_all_partial_failure_witness :
    fetch_all outcomeCooFails "428 Alaska Ave" (some "91403") 25 =
      .ok (fetchAllBundle outcomeCooFails "428 Alaska Ave" (some "91403") 25) ∧
    (fetchAllBundle outcomeCooFails "428 Alaska Ave" (some "91403") 25).results.map Prod.fst =
      DATASETS.map (fun cfg => cfg.result_key) ∧
    (∀ cfg ∈ DATASETS,
      (fetchAllBundle outcomeCooFails "428 Alaska Ave" (some "91403") 25).results.lookup
        cfg.result_key = some (rowsOf outcomeCooFails cfg)) ∧
    (∀ cfg ∈ DATASETS, ∀ e, outcomeCooFails cfg = .error e →
      (fetchAllBundle outcomeCooFails "428 Alaska Ave" (some "91403") 25).errors.lookup
          cfg.result_key = some e.message ∧
      (fetchAllBundle outcomeCooFails "428 Alaska Ave" (some "91403") 25).results.lookup
          cfg.result_key = some []) :=
  C3_fetch_all_partial_failure outcomeCooFails "428 Alaska Ave" (some "91403") 25
    (by decide) (by decide)

/-- A key bound in the conditional `news` singleton is `"news"`. -/
theorem lookup_news_singleton_isSome (c : Bool) (out : AgentOutput) (k : String)
    (h : (((if c = true then [("news", out)] else [] :
      List (String × AgentOutput)).lookup k).isSome)) : k = "news" := by
  cases c with
  | false => simp [List.lookup] at h
  | true =>
    rw [if_pos rfl, lookup_cons] at h
    by_cases hk : k = "news"
    · exact hk
    · rw [if_neg hk] at h
      simp [List.lookup] at h

/-- Any key other than `"news"` is unbound in the conditional `news`
singleton. -/
theorem lookup_news_singleton_other (c : Bool) (out : AgentOutput) (k : String)
    (hkn : c = true → k ≠ "news") :
    ((if c = true then [("news", out)] else [] :
      List (String × AgentOutput)).lookup k) = none := by
  cases c with
  | false => rfl
  | true =>
    rw [if_pos rfl, lookup_cons, if_neg (hkn rfl)]
    rfl

/-- The scheduler pipeline (collect, then fill) binds exactly the canonical
keys, provided the pre-collected outputs and the batch labels stay within
them and the `news`/Serper short-circuit pre-binds `news`. -/
theorem scheduler_outputs_isSome_iff (es : List String) (sm : Bool)
    (o1 : List (String × AgentOutput)) (r1 : List (String × String))
    (labels raws : List String) (k : String)
    (ho1 : ∀ k', ((o1.lookup k').isSome) → k' ∈ ALL_AGENT_KEYS)
    (hlab : ∀ k' ∈ labels, k' ∈ ALL_AGENT_KEYS)
    (hnews : k = "news" → sm = true → ((o1.lookup k).isSome)) :
    (((ALL_AGENT_KEYS.foldl (fillDefaults es sm)
        ((labels.zip raws).foldl collectStep (o1, r1))).1.lookup k).isSome) ↔
      k ∈ ALL_AGENT_KEYS := by
  constructor
  · intro hE
    rcases fill_domain es sm ALL_AGENT_KEYS _ k hE with h2 | h2
    · rcases (collect_foldl_isSome _ _ k).mp h2 with h3 | h3
      · exact ho1 k h3
      · exact hlab k (mem_map_fst_zip labels raws k h3)
    · exact h2
  · intro hk
    by_cases hns : k = "news" ∧ sm = true
    · have h1 := hnews hns.1 hns.2
      have h2 := (collect_foldl_isSome (labels.zip raws) (o1, r1) k).mpr (Or.inl h1)
      obtain ⟨w, hw⟩ := Option.isSome_iff_exists.mp h2
      rw [fill_preserves es sm ALL_AGENT_KEYS _ k w hw]
      rfl
    · exact fill_isSome_of_mem es sm ALL_AGENT_KEYS _ k hk hns

/-- A canonical key outside the enabled set, the pre-collected outputs and
the batch labels ends with the not-selected default. -/
theorem scheduler_outputs_not_selected (es : List String) (sm : Bool)
    (o1 : List (String × AgentOutput)) (r1 : List (String × String))
    (labels raws : List String) (k : String)
    (hk : k ∈ ALL_AGENT_KEYS) (hes : es.contains k = false)
    (ho1 : o1.lookup k = none) (hlab : k ∉ labels) :
    ((ALL_AGENT_KEYS.foldl (fillDefaults es sm)
        ((labels.zip raws).foldl collectStep (o1, r1))).1.lookup k) =
      some notSelectedOutput := by
  have h2 : ((labels.zip raws).foldl collectStep (o1, r1)).1.lookup k = none := by
    rw [collect_foldl_lookup_not_mem _ _ k
      (fun hmem => hlab (mem_map_fst_zip labels raws k hmem))]
    exact ho1
  exact fill_not_selected es sm ALL_AGENT_KEYS (by decide) _ k hk h2 hes

/-- C2, refutation: with enabled set `{investment, construction}` the
`location` key does get the score-50 not-selected default, but its
rationale is `"Agent not selected for this run; using neutral score."`, not
exactly the quoted `"Agent not selected for this run"`. -/
theorem C2_counterexample :
    (run_specialists exampleListing (some ["investment", "construction"])
      exampleOracle).outputs.lookup "location" = some notSelectedOutput ∧
    notSelectedOutput.rationale ≠ "Agent not selected for this run" := by
  exact ⟨by decide, by decide⟩

/-- C2, amended: for every listing, every oracle behaviour and every
non-empty enabled subset of the five canonical keys (the empty sequence is
falsy in Python and means "all agents"), the scheduler's outputs bind
exactly the five canonical keys, and every canonical key that was not
enabled carries the score-50 default with rationale
`"Agent not selected for this run; using neutral score."` and exactly one
note. -/
theorem C2_run_specialists_closed (l : ListingM) (o : CrewOracle) (enabled : List String)
    (hne : enabled ≠ []) (hsub : ∀ k ∈ enabled, k ∈ ALL_AGENT_KEYS) :
    (∀ k, ((run_specialists l (some enabled) o).outputs.lookup k).isSome ↔
      k ∈ ALL_AGENT_KEYS) ∧
    (∀ k ∈ ALL_AGENT_KEYS, k ∉ enabled →
      (run_specialists l (some enabled) o).outputs.lookup k = some notSelectedOutput) ∧
    notSelectedOutput.score_1_to_100 = 50 ∧ notSelectedOutput.notes.length = 1 := by
  have hset : enabledSetOf (some enabled) = enabled := by
    cases enabled with
    | nil => exact absurd rfl hne
    | cons a t => rfl
  refine ⟨?_, ?_, rfl, rfl⟩
  · intro k
    simp only [run_specialists, hset]
    apply scheduler_outputs_isSome_iff
    · intro k' h'
      rw [lookup_news_singleton_isSome _ _ _ h']
      decide
    · intro k' hmem
      rcases List.mem_append.mp hmem with h1234 | h5
      · rcases List.mem_append.mp h1234 with h123 | h4
        · rcases List.mem_append.mp h123 with h12 | h3
          · rcases List.mem_append.mp h12 with h1 | h2
            · obtain ⟨_, rfl⟩ := mem_ite_singleton _ _ _ h1; decide
            · obtain ⟨_, rfl⟩ := mem_ite_singleton _ _ _ h2; decide
          · obtain ⟨_, rfl⟩ := mem_ite_singleton _ _ _ h3; decide
        · obtain ⟨_, rfl⟩ := mem_ite_singleton _ _ _ h4; decide
      · obtain ⟨_, rfl⟩ := mem_ite_singleton _ _ _ h5; decide
    · intro hknews hsm
      subst hknews
      rw [if_pos hsm, lookup_cons]
      simp
  · intro k hk hkne
    simp only [run_specialists, hset]
    apply scheduler_outputs_not_selected
    · exact hk
    · cases hc : enabled.contains k with
      | false => rfl
      | true => exact absurd (List.mem_of_elem_eq_true hc) hkne
    · apply lookup_news_singleton_other
      intro hsm hEq
      rw [Bool.and_eq_true] at hsm
      exact hkne (hEq ▸ List.mem_of_elem_eq_true hsm.1)
    · intro hmem
      rcases List.mem_append.mp hmem with h1234 | h5
      · rcases List.mem_append.mp h1234 with h123 | h4
        · rcases List.mem_append.mp h123 with h12 | h3
          · rcases List.mem_append.mp h12 with h1 | h2
            · obtain ⟨hc, rfl⟩ := mem_ite_singleton _ _ _ h1
              exact hkne (List.mem_of_elem_eq_true hc)
            · obtain ⟨hc, rfl⟩ := mem_ite_singleton _ _ _ h2
              exact hkne (List.mem_of_elem_eq_true hc)
          · obtain ⟨hc, rfl⟩ := mem_ite_singleton _ _ _ h3
            rw [Bool.and_eq_true] at hc
            exact hkne (List.mem_of_elem_eq_true hc.1)
        · obtain ⟨hc, rfl⟩ := mem_ite_singleton _ _ _ h4
          exact hkne (List.mem_of_elem_eq_true hc)
      · obtain ⟨hc, rfl⟩ := mem_ite_singleton _ _ _ h5
        exact hkne (List.mem_of_elem_eq_true hc)

/-- C2 (amended) witness: the concrete scenario of the claim — enabled set
`{investment, construction}` on a listing with an address. -/
theorem C2_run_specialists_closed_witness :
    (∀ k, ((run_specialists exampleListing (some ["investment", "construction"])
        exampleOracle).outputs.lookup k).isSome ↔ k ∈ ALL_AGENT_KEYS) ∧
    (∀ k ∈ ALL_AGENT_KEYS, k ∉ ["investment", "construction"] →
      (run_specialists exampleListing (some ["investment", "construction"])
        exampleOracle).outputs.lookup k = some notSelectedOutput) ∧
    notSelectedOutput.score_1_to_100 = 50 ∧ notSelectedOutput.notes.length = 1 :=
  C2_run_specialists_closed exampleListing exampleOracle ["investment", "construction"]
    (by decide) (by decide)

/-- C5: whenever the `try` body of `_parse_agent_output` fails,
`_parse_agent_output` still returns (it is total by construction) a record
with score 50, a rationale describing the parse failure, and exactly one
non-empty note. -/
theorem C5_parse_failure_never_raises (raw e : String)
    (h : parse_agent_output_core raw = .error e) :
    parse_agent_output raw =
      ⟨50, "Parse error: " ++ e, ["Failed to parse agent response"]⟩ ∧
    (parse_agent_output raw).score_1_to_100 = 50 ∧
    (parse_agent_output raw).notes.length = 1 ∧
    ∀ n ∈ (parse_agent_output raw).notes, n ≠ "" := by
  have hp : parse_agent_output raw =
      ⟨50, "Parse error: " ++ e, ["Failed to parse agent response"]⟩ := by
    unfold parse_agent_output
    rw [h]
  refine ⟨hp, by simp [hp], by simp [hp], ?_⟩
  rw [hp]
  intro n hn
  rw [List.mem_singleton] at hn
  subst hn
  decide

/-- C5 witness: the garbage input `"not json at all"` takes the failure
path and yields the neutral fallback record. -/
theorem C5_parse_failure_witness :
    parse_agent_output "not json at all" =
      ⟨50, "Parse error: " ++ "Expecting value: invalid JSON",
       ["Failed to parse agent response"]⟩ ∧
    (parse_agent_output "not json at all").score_1_to_100 = 50 ∧
    (parse_agent_output "not json at all").notes.length = 1 ∧
    ∀ n ∈ (parse_agent_output "not json at all").notes, n ≠ "" :=
  C5_parse_failure_never_raises "not json at all" "Expecting value: invalid JSON" (by decide)

/-- C6: on the fenced input the normalizer extracts exactly the fence
interior and parses it to the record with score 42, rationale `"r"` and
notes `["a", "b"]`. -/
theorem C6_fenced_round_trip :
    extract_json_str
        "```json\n\x7b\"score_1_to_100\":42,\"rationale\":\"r\",\"notes\":[\"a\",\"b\"]\x7d\n```".data =
      "\x7b\"score_1_to_100\":42,\"rationale\":\"r\",\"notes\":[\"a\",\"b\"]\x7d".data ∧
    parse_agent_output
        "```json\n\x7b\"score_1_to_100\":42,\"rationale\":\"r\",\"notes\":[\"a\",\"b\"]\x7d\n```" =
      ⟨42, "r", ["a", "b"]⟩ := by
  exact ⟨by decide, by decide⟩

/-- C10: `fetch_all` fails with `ValueError` exactly when the address is
empty or the limit non-positive; in that case the outcome is independent of
the dataset oracle (no query is issued); and the scheduler swallows a
`ValueError` from the LA fetch, degrading to an absent records payload
instead of failing the run. -/
theorem C10_fetch_all_precondition (outcome outcome2 : DatasetConfig → FetchResult)
    (address : String) (zip_code : Option String) (limit : Int) :
    ((∃ msg, fetch_all outcome address zip_code limit = .error (.valueError msg)) ↔
      (address = "" ∨ limit ≤ 0)) ∧
    (address = "" ∨ limit ≤ 0 →
      fetch_all outcome address zip_code limit = fetch_all outcome2 address zip_code limit) ∧
    (∀ (l : ListingM) (enabled : Option (List String)) (o : CrewOracle) (msg : String),
      o.laFetch = .error (.valueError msg) →
      (run_specialists l enabled o).la_city_records = none) := by
  refine ⟨⟨?_, ?_⟩, ?_, ?_⟩
  · rintro ⟨msg, h⟩
    by_cases ha : address = ""
    · exact Or.inl ha
    · by_cases hl : limit ≤ 0
      · exact Or.inr hl
      · simp only [fetch_all, if_neg ha, if_neg hl] at h
        exact absurd h (by simp)
  · intro h
    by_cases ha : address = ""
    · exact ⟨"address must be provided", by simp only [fetch_all, if_pos ha]⟩
    · have hl : limit ≤ 0 := h.resolve_left ha
      exact ⟨"limit must be positive", by simp only [fetch_all, if_neg ha, if_pos hl]⟩
  · intro h
    by_cases ha : address = ""
    · simp only [fetch_all, if_pos ha]
    · have hl : limit ≤ 0 := h.resolve_left ha
      simp only [fetch_all, if_neg ha, if_pos hl]
  · intro l enabled o msg h
    simp only [run_specialists]
    rw [h]
    simp

/-- C10 witness: the empty address fails whatever the oracle does; a
non-positive limit gives the same error under two different oracles; and
the scheduler returns an absent records payload when the fetch raised
`ValueError`. -/
theorem C10_fetch_all_precondition_witness :
    (∃ msg, fetch_all outcomeCooFails "" (some "91403") 25 =
      .error (.valueError msg)) ∧
    fetch_all outcomeCooFails "428 Alaska Ave" none 0 =
      fetch_all (fun _ => .ok []) "428 Alaska Ave" none 0 ∧
    (run_specialists exampleListing (some ["investment"])
      exampleOracle).la_city_records = none :=
  ⟨(C10_fetch_all_precondition outcomeCooFails outcomeCooFails "" (some "91403") 25).1.mpr
      (Or.inl rfl),
   (C10_fetch_all_precondition outcomeCooFails (fun _ => .ok []) "428 Alaska Ave" none 0).2.1
      (Or.inr (by decide)),
   (C10_fetch_all_precondition outcomeCooFails outcomeCooFails "x" none 1).2.2
      exampleListing (some ["investment"]) exampleOracle "address must be provided" rfl⟩

end NivHenn
